import Mathlib

/-!
Verification of the ipython-mcp kernel client (`src/ipython_mcp/server.py`).

The Python module is shallowly embedded below.  Conventions used throughout:

* Byte strings (`bytes`) are `List Nat` with each element a byte value.
* Python dicts keyed by strings (the parsed connection descriptor and the
  `pending_executions` tracker) are association lists `List (String × _)`
  with first-occurrence lookup/update, matching dict semantics as long as
  keys are unique (which the code guarantees: descriptor keys come from a
  parsed JSON object and tracker keys are fresh UUIDs).
* ZMQ sockets are modelled by open/closed booleans plus, for `connect`
  calls, an `Option String` input standing for the exception raised by a
  failing `socket.connect` (`none` = success).
* Inbound IOPub multipart messages are modelled after JSON parsing: a
  `KernelMsg` carries the segment count together with the fields the code
  reads out of the header, parent-header and content dictionaries.
* Each tool returns a Python string built from f-string templates; every
  `return` site is modelled by a constructor of a result type and a
  `render…` function reproduces the exact returned text.
-/

namespace IPythonMcp

/-! ## Bytes -/

abbrev Bytes := List Nat

/-- UTF-8 encoding of a string, as a byte list (models `str.encode('utf-8')`). -/
def utf8Bytes (s : String) : Bytes :=
  s.toUTF8.toList.map (fun b => b.toNat)

/-! ## SHA-256 (RFC 6234), over byte lists -/

/-- Truncate to a 32-bit word. -/
def w32 (x : Nat) : Nat := x % 4294967296

/-- Right-rotation of a 32-bit word (`x < 2^32`, `n ≤ 32`). -/
def rotr32 (x n : Nat) : Nat := x / 2 ^ n + x % 2 ^ n * 2 ^ (32 - n)

/-- Bitwise complement within 32 bits. -/
def not32 (x : Nat) : Nat := x ^^^ 4294967295

def shaCh (x y z : Nat) : Nat := (x &&& y) ^^^ (not32 x &&& z)

def shaMaj (x y z : Nat) : Nat := (x &&& y) ^^^ (x &&& z) ^^^ (y &&& z)

def bsig0 (x : Nat) : Nat := rotr32 x 2 ^^^ rotr32 x 13 ^^^ rotr32 x 22

def bsig1 (x : Nat) : Nat := rotr32 x 6 ^^^ rotr32 x 11 ^^^ rotr32 x 25

def ssig0 (x : Nat) : Nat := rotr32 x 7 ^^^ rotr32 x 18 ^^^ (x >>> 3)

def ssig1 (x : Nat) : Nat := rotr32 x 17 ^^^ rotr32 x 19 ^^^ (x >>> 10)

/-- The 64 SHA-256 round constants (decimal). -/
def shaK : List Nat :=
  [1116352408, 1899447441, 3049323471, 3921009573, 961987163, 1508970993,
   2453635748, 2870763221, 3624381080, 310598401, 607225278, 1426881987,
   1925078388, 2162078206, 2614888103, 3248222580, 3835390401, 4022224774,
   264347078, 604807628, 770255983, 1249150122, 1555081692, 1996064986,
   2554220882, 2821834349, 2952996808, 3210313671, 3336571891, 3584528711,
   113926993, 338241895, 666307205, 773529912, 1294757372, 1396182291,
   1695183700, 1986661051, 2177026350, 2456956037, 2730485921, 2820302411,
   3259730800, 3345764771, 3516065817, 3600352804, 4094571909, 275423344,
   430227734, 506948616, 659060556, 883997877, 958139571, 1322822218,
   1537002063, 1747873779, 1955562222, 2024104815, 2227730452, 2361852424,
   2428436474, 2756734187, 3204031479, 3329325298]

/-- The SHA-256 initial hash state (decimal). -/
def shaH0 : List Nat :=
  [1779033703, 3144134277, 1013904242, 2773480762, 1359893119, 2600822924,
   528734635, 1541459225]

/-- Big-endian 8-byte encoding of a length (in bits). -/
def lenBytes8 (n : Nat) : Bytes :=
  (List.range 8).map (fun i => n / 2 ^ (8 * (7 - i)) % 256)

/-- SHA-256 padding: append `0x80`, zero bytes to 56 mod 64, then the
64-bit big-endian bit length. -/
def padMessage (msg : Bytes) : Bytes :=
  msg ++ [128] ++ List.replicate ((64 - (msg.length + 9) % 64) % 64) 0 ++
    lenBytes8 (8 * msg.length)

/-- Big-endian 4-byte groups to 32-bit words. -/
def bytesToWords : Bytes → List Nat
  | a :: b :: c :: d :: rest => (((a * 256 + b) * 256 + c) * 256 + d) :: bytesToWords rest
  | _ => []

/-- Extend the 16 block words to the 64-entry message schedule. -/
def msgSchedule (w16 : List Nat) : List Nat :=
  (List.range 48).foldl
    (fun w _ =>
      let n := w.length
      w ++ [w32 (ssig1 (w.getD (n - 2) 0) + w.getD (n - 7) 0 +
                 ssig0 (w.getD (n - 15) 0) + w.getD (n - 16) 0)])
    w16

/-- One SHA-256 compression round over the running tuple `(a,…,h)`. -/
def shaRound (w : List Nat) (s : Nat × Nat × Nat × Nat × Nat × Nat × Nat × Nat) (t : Nat) :
    Nat × Nat × Nat × Nat × Nat × Nat × Nat × Nat :=
  let (a, b, c, d, e, f, g, hh) := s
  let t1 := w32 (hh + bsig1 e + shaCh e f g + shaK.getD t 0 + w.getD t 0)
  let t2 := w32 (bsig0 a + shaMaj a b c)
  (w32 (t1 + t2), a, b, c, w32 (d + t1), e, f, g)

/-- SHA-256 compression of one 64-byte block into the hash state. -/
def shaCompress (h : List Nat) (block : Bytes) : List Nat :=
  let w := msgSchedule (bytesToWords block)
  let s0 := (h.getD 0 0, h.getD 1 0, h.getD 2 0, h.getD 3 0,
             h.getD 4 0, h.getD 5 0, h.getD 6 0, h.getD 7 0)
  let r := (List.range 64).foldl (shaRound w) s0
  let (a, b, c, d, e, f, g, hh) := r
  [w32 (h.getD 0 0 + a), w32 (h.getD 1 0 + b), w32 (h.getD 2 0 + c), w32 (h.getD 3 0 + d),
   w32 (h.getD 4 0 + e), w32 (h.getD 5 0 + f), w32 (h.getD 6 0 + g), w32 (h.getD 7 0 + hh)]

def wordsToBytes (ws : List Nat) : Bytes :=
  List.flatten (ws.map (fun w => [w / 2 ^ 24 % 256, w / 2 ^ 16 % 256, w / 2 ^ 8 % 256, w % 256]))

/-- SHA-256 digest (32 bytes) of a byte list. -/
def sha256 (msg : Bytes) : Bytes :=
  let padded := padMessage msg
  wordsToBytes ((List.range (padded.length / 64)).foldl
    (fun h i => shaCompress h ((padded.drop (64 * i)).take 64)) shaH0)

/-- HMAC-SHA256 (RFC 2104) of `msg` under `key`, as 32 digest bytes. -/
def hmacSha256 (key msg : Bytes) : Bytes :=
  let k0 := if 64 < key.length then sha256 key else key
  let kp := k0 ++ List.replicate (64 - k0.length) 0
  sha256 ((kp.map (fun b => b ^^^ 92)) ++ sha256 ((kp.map (fun b => b ^^^ 54)) ++ msg))

/-! ## Hex digests -/

def hexDigits : List Char := "0123456789abcdef".toList

def byteToHex (b : Nat) : List Char :=
  [hexDigits.getD (b / 16 % 16) '0', hexDigits.getD (b % 16) '0']

/-- Lowercase hexadecimal rendering of a byte list (Python `.hexdigest()`). -/
def hexLower (bs : Bytes) : String :=
  String.mk (List.flatten (bs.map byteToHex))

/-! ## `sign_message` (server.py lines 71-76)

Python:
```text
def sign_message(msg_lst, key):
    h = hmac.new(key.encode('utf-8'), digestmod=hashlib.sha256)
    for m in msg_lst:
        h.update(m)
    return h.hexdigest().encode('utf-8')
```
The `hmac.new` object is modelled by its key together with the bytes fed
to `update` so far; `hexdigest` hashes the accumulated buffer.
-/

structure HmacObj where
  keyBytes : Bytes
  buffered : Bytes
deriving DecidableEq

def hmacNew (k : Bytes) : HmacObj := ⟨k, []⟩

def hmacUpdate (h : HmacObj) (m : Bytes) : HmacObj := ⟨h.keyBytes, h.buffered ++ m⟩

def hmacHexdigest (h : HmacObj) : String := hexLower (hmacSha256 h.keyBytes h.buffered)

/-- The hex digest string computed by `sign_message` before the final
`.encode('utf-8')`. -/
def signHex (msgLst : List Bytes) (key : String) : String :=
  hmacHexdigest (msgLst.foldl hmacUpdate (hmacNew (utf8Bytes key)))

/-- `sign_message(msg_lst, key)`: hex HMAC digest, UTF-8 encoded. -/
def sign_message (msgLst : List Bytes) (key : String) : Bytes :=
  utf8Bytes (signHex msgLst key)

/-! ## Wire envelope constants -/

/-- The protocol delimiter literal `b'<IDS|MSG>'`. -/
def delimSeg : Bytes := utf8Bytes "<IDS|MSG>"

/-- The serialized empty JSON object `b'\x7b\x7d'` used for empty
parent-header / metadata / content segments. -/
def emptyBraces : Bytes := utf8Bytes "\x7b\x7d"

/-! ## Inbound IOPub messages

A multipart message as seen after the JSON parsing steps the code performs
on segments 3 (header), 4 (parent header) and 6 (content):
`nSegments` is `len(msg)`; the remaining fields are the `.get` accesses the
code makes (`none` models a missing key).  `dataTextPlain` collapses
`content.get("data", {}).get("text/plain", …)` into one optional field.
-/

structure KernelMsg where
  nSegments : Nat
  msgType : Option String
  parentMsgId : Option String
  dataTextPlain : Option String
  streamText : Option String
  ename : Option String
  evalue : Option String
  traceback : List String
  executionState : Option String
deriving DecidableEq

/-- Python `str.strip()` whitespace predicate. -/
def pyIsSpace (c : Char) : Bool :=
  c = ' ' || c = '\t' || c = '\n' || c = '\r' || c = Char.ofNat 11 || c = Char.ofNat 12

/-- Python `str.strip()`. -/
def pyStrip (s : String) : String :=
  String.mk (((s.toList.dropWhile pyIsSpace).reverse.dropWhile pyIsSpace).reverse)

/-- Strip the four hardcoded ANSI escape literals from a traceback line
(both copies of this cleanup in the source remove the same four codes). -/
def cleanAnsi (line : String) : String :=
  ((((line.replace "\x1b[0;31m" "").replace "\x1b[0m" "").replace
      "\x1b[1;32m" "").replace "\x1b[0;32m" "")

/-- The error text accumulated for an `error` message:
`f"{ename}: {evalue}"` plus cleaned traceback lines. -/
def formatErrorMsg (m : KernelMsg) : String :=
  let base := m.ename.getD "Error" ++ ": " ++ m.evalue.getD ""
  if m.traceback = [] then base
  else base ++ "\n" ++ String.intercalate "\n" (m.traceback.map cleanAnsi)

/-- State of one tracked execution: the `pending_executions` entry dict
`{"results": …, "streams": …, "errors": …, "done": …}`; `interrupted`
models the key optionally added by `interrupt_execution` (absent ≡ false).
The same record also holds `execute_code`'s local accumulators. -/
structure ExecState where
  results : List String
  streams : List String
  errors : List String
  done : Bool
  interrupted : Bool
deriving DecidableEq

def initExecState : ExecState := ⟨[], [], [], false, false⟩

/-- The `msg_type` dispatch shared verbatim by `_process_iopub_messages`
(lines 104-137) and the `execute_code` wait loop (lines 367-398). -/
def dispatchMsg (m : KernelMsg) (st : ExecState) : ExecState :=
  if m.msgType = some "execute_result" then
    let r := m.dataTextPlain.getD ""
    if r ≠ "" then { st with results := st.results ++ [r] } else st
  else if m.msgType = some "stream" then
    let t := pyStrip (m.streamText.getD "")
    if t ≠ "" then { st with streams := st.streams ++ [t] } else st
  else if m.msgType = some "error" then
    { st with errors := st.errors ++ [formatErrorMsg m] }
  else if m.msgType = some "status" then
    if m.executionState = some "idle" then { st with done := true } else st
  else st

/-! ## The pending-execution tracker as an association list -/

abbrev PendMap := List (String × ExecState)

/-- First-occurrence lookup (Python `dict[key]` / `key in dict`). -/
def lookupKey (k : String) : List (String × β) → Option β
  | [] => none
  | (k', v) :: rest => if k' = k then some v else lookupKey k rest

/-- In-place value update of the first matching key (mutation of the dict
value object in Python). -/
def mapUpdate (m : PendMap) (k : String) (f : ExecState → ExecState) : PendMap :=
  match m with
  | [] => []
  | (k', v) :: rest => if k' = k then (k, f v) :: rest else (k', v) :: mapUpdate rest k f

/-- `dict[key] = value`: overwrite in place if present, else append. -/
def mapInsert (m : PendMap) (k : String) (v : ExecState) : PendMap :=
  match m with
  | [] => [(k, v)]
  | (k', v') :: rest => if k' = k then (k, v) :: rest else (k', v') :: mapInsert rest k v

/-- `del dict[key]`. -/
def mapErase (m : PendMap) (k : String) : PendMap :=
  match m with
  | [] => []
  | (k', v) :: rest => if k' = k then rest else (k', v) :: mapErase rest k

/-! ## `_process_iopub_messages` (lines 79-137) -/

/-- One loop iteration of the drain: skip short messages, skip messages
whose parent msg_id is untracked, otherwise fold the content into the
tracked entry. -/
def iopubStep (pend : PendMap) (m : KernelMsg) : PendMap :=
  if m.nSegments < 7 then pend
  else
    match m.parentMsgId with
    | none => pend
    | some mid =>
      if (lookupKey mid pend).isSome then mapUpdate pend mid (dispatchMsg m)
      else pend

/-- `_process_iopub_messages()`: drains the queued messages (`inbox`) into
the tracker.  `iopubOpen` models the truthiness of `iopub_socket`; the
early return also fires when no executions are pending. -/
def process_iopub_messages (iopubOpen : Bool) (pend : PendMap)
    (inbox : List KernelMsg) : PendMap :=
  if iopubOpen = false ∨ pend = [] then pend
  else inbox.foldl iopubStep pend

/-! ## `check_execution` (lines 516-552) -/

/-- One constructor per `return` site of `check_execution`. -/
inductive CheckResult
  | unknown
  | finishedNoOutput
  | finished (parts : List String)
  | stillRunning
  | partialOutput (parts : List String)
deriving DecidableEq

def renderCheckResult : CheckResult → String
  | CheckResult.unknown => "❌ Unknown execution id"
  | CheckResult.finishedNoOutput => "✅ Code executed successfully (no output)"
  | CheckResult.finished parts => String.intercalate "\n" parts
  | CheckResult.stillRunning => "⏳ Execution in progress"
  | CheckResult.partialOutput parts =>
      String.intercalate "\n" parts ++ "\n⏳ Execution in progress"

def isTerminal : CheckResult → Bool
  | CheckResult.finishedNoOutput => true
  | CheckResult.finished _ => true
  | _ => false

/-- `output_parts` as built by `check_execution` lines 538-542:
start from `[]`, `extend` with streams then results, then append each
error with the `"❌ "` prefix. -/
def outputPartsState (st : ExecState) : List String :=
  st.errors.foldl (fun ps e => ps ++ ["❌ " ++ e])
    ((([] : List String) ++ st.streams) ++ st.results)

/-- `check_execution(msg_id)`: returns the result together with the
tracker state after the call.  The drain consumes `inbox`. -/
def check_execution (iopubOpen : Bool) (pend : PendMap) (inbox : List KernelMsg)
    (msgId : String) : CheckResult × PendMap :=
  if (lookupKey msgId pend).isNone then (CheckResult.unknown, pend)
  else
    match lookupKey msgId (process_iopub_messages iopubOpen pend inbox) with
    | none =>
      -- Unreachable: the drain preserves the tracker keys, and the entry
      -- was present at the guard above (in Python the indexing would
      -- raise `KeyError`; this arm is provably dead, see the key lemmas).
      (CheckResult.unknown, process_iopub_messages iopubOpen pend inbox)
    | some st =>
      if st.done then
        (if outputPartsState st = [] then CheckResult.finishedNoOutput
         else CheckResult.finished (outputPartsState st),
         mapErase (process_iopub_messages iopubOpen pend inbox) msgId)
      else if outputPartsState st = [] then
        (CheckResult.stillRunning, process_iopub_messages iopubOpen pend inbox)
      else
        (CheckResult.partialOutput (outputPartsState st),
         process_iopub_messages iopubOpen pend inbox)

/-! ## `execute_code` (lines 282-446)

The wait loop is driven by the sequence of `recv_multipart(zmq.NOBLOCK)`
outcomes: `some m` is a received multipart message, `none` is a
`zmq.Again` poll (10 ms sleep).  Once the finite trace is exhausted the
socket yields `zmq.Again` forever, so the counter reaches the bound of
100 consecutive empty polls and the loop times out.
-/

/-- One iteration body of the wait loop over `(accumulators, timeout_count)`:
an empty poll bumps the counter; a message of at least 7 segments whose
parent id matches is dispatched and resets the counter; a matching-length
message for a foreign parent is skipped by `continue` (no reset); a short
message still reaches the `timeout_count = 0` line. -/
def pollStep (ourId : String) (s : ExecState × Nat) (e : Option KernelMsg) :
    ExecState × Nat :=
  match e with
  | none => (s.1, s.2 + 1)
  | some m =>
    if 7 ≤ m.nSegments then
      if m.parentMsgId = some ourId then (dispatchMsg m s.1, 0) else s
    else (s.1, 0)

/-- Outcome of the wait loop: completion via the idle status, or fall-out
of `while … timeout_count < 100`. -/
inductive LoopResult
  | completed (acc : ExecState)
  | timedOut (acc : ExecState)
deriving DecidableEq

/-- The wait loop `while not execution_done and timeout_count < 100`. -/
def execLoop (ourId : String) (events : List (Option KernelMsg))
    (acc : ExecState) (tc : Nat) : LoopResult :=
  if acc.done then LoopResult.completed acc
  else if 100 ≤ tc then LoopResult.timedOut acc
  else
    match events with
    | [] => LoopResult.timedOut acc
    | e :: rest =>
      execLoop ourId rest (pollStep ourId (acc, tc) e).1 (pollStep ourId (acc, tc) e).2

/-- `output_parts` as built by `execute_code` (lines 412-418 and 426-438):
per-item appends of streams, then results, then prefixed errors. -/
def outputPartsExec (streams results errors : List String) : List String :=
  errors.foldl (fun ps e => ps ++ ["❌ " ++ e])
    (results.foldl (fun ps r => ps ++ [r])
      (streams.foldl (fun ps s => ps ++ [s]) ([] : List String)))

/-- One constructor per `return` site of `execute_code`. -/
inductive ExecResult
  | notConnected
  | timedOutNoOutput
  | timedOutPartial (parts : List String)
  | doneNoOutput
  | doneOutput (parts : List String)
deriving DecidableEq

def timeoutWarning : String :=
  "⚠️ Execution timed out after ~1 second. Code may still be running in background."

def renderExecResult : ExecResult → String
  | ExecResult.notConnected => "❌ Not connected to kernel. Use connect_to_kernel() first."
  | ExecResult.timedOutNoOutput =>
      timeoutWarning ++ " Use execute_code_nonblocking for long operations."
  | ExecResult.timedOutPartial parts =>
      timeoutWarning ++ "\n\nPartial output:\n" ++ String.intercalate "\n" parts
  | ExecResult.doneNoOutput => "✅ Code executed successfully (no output)"
  | ExecResult.doneOutput parts => String.intercalate "\n" parts

/-- `execute_code(code)`.  `connected` is the truthiness of
`kernel_connection and shell_socket and iopub_socket`; `hdr` and `cnt` are
the serialized header and content segments (fresh `msg_id` = `ourId`);
the second component is the list of envelopes sent on the shell socket. -/
def execute_code (connected : Bool) (hdr cnt : Bytes) (key ourId : String)
    (events : List (Option KernelMsg)) : ExecResult × List (List Bytes) :=
  if connected = false then (ExecResult.notConnected, [])
  else
    let sent := [[], delimSeg, sign_message [hdr, emptyBraces, emptyBraces, cnt] key,
                 hdr, emptyBraces, emptyBraces, cnt]
    match execLoop ourId events initExecState 0 with
    | LoopResult.timedOut acc =>
      let parts := outputPartsExec acc.streams acc.results acc.errors
      if parts ≠ [] then (ExecResult.timedOutPartial parts, [sent])
      else (ExecResult.timedOutNoOutput, [sent])
    | LoopResult.completed acc =>
      let parts := outputPartsExec acc.streams acc.results acc.errors
      if parts = [] then (ExecResult.doneNoOutput, [sent])
      else (ExecResult.doneOutput parts, [sent])

/-! ## `execute_code_nonblocking` (lines 449-513) -/

inductive NonblockResult
  | notConnected
  | started (msgId : String)
deriving DecidableEq

def renderNonblockResult : NonblockResult → String
  | NonblockResult.notConnected => "❌ Not connected to kernel. Use connect_to_kernel() first."
  | NonblockResult.started msgId => "✅ Started execution " ++ msgId

/-- `execute_code_nonblocking(code)`: sends one envelope on the shell
socket and registers a fresh tracker entry
`{"results": [], "streams": [], "errors": [], "done": False}`. -/
def execute_code_nonblocking (connected : Bool) (pend : PendMap) (msgId : String)
    (hdr cnt : Bytes) (key : String) :
    NonblockResult × PendMap × List (List Bytes) :=
  if connected = false then (NonblockResult.notConnected, pend, [])
  else
    (NonblockResult.started msgId,
     mapInsert pend msgId initExecState,
     [[[], delimSeg, sign_message [hdr, emptyBraces, emptyBraces, cnt] key,
       hdr, emptyBraces, emptyBraces, cnt]])

/-! ## `interrupt_execution` (lines 630-698) -/

inductive InterruptResult
  | notConnected
  | noPending (msgId : String)
  | sent (msgId : String)
deriving DecidableEq

def renderInterruptResult : InterruptResult → String
  | InterruptResult.notConnected => "❌ Not connected to kernel. Use connect_to_kernel() first."
  | InterruptResult.noPending msgId => "❌ No pending execution found with ID: " ++ msgId
  | InterruptResult.sent msgId =>
      "✅ Interrupt request sent for execution " ++ msgId ++
        "\n💡 Use check_execution() to verify cancellation status"

/-- `interrupt_execution(msg_id)`.  `connected` is the truthiness of
`kernel_connection and control_socket`; `hdr` is the serialized
interrupt_request header (fresh ids and date); parent-header, metadata and
content are all `json.dumps(\x7b\x7d)`.  The third component is the list
of envelopes sent on the control socket. -/
def interrupt_execution (connected : Bool) (pend : PendMap) (msgId : String)
    (hdr : Bytes) (key : String) :
    InterruptResult × PendMap × List (List Bytes) :=
  if connected = false then (InterruptResult.notConnected, pend, [])
  else if (lookupKey msgId pend).isNone then (InterruptResult.noPending msgId, pend, [])
  else
    (InterruptResult.sent msgId,
     mapUpdate pend msgId (fun st => { st with interrupted := true }),
     [[[], delimSeg, sign_message [hdr, emptyBraces, emptyBraces, emptyBraces] key,
       hdr, emptyBraces, emptyBraces, emptyBraces]])

/-! ## `connect_to_kernel` (lines 207-279) and `kernel_status` (lines 576-592) -/

/-- The parsed connection-descriptor JSON object (values rendered as the
strings interpolated into addresses). -/
abbrev Desc := List (String × String)

/-- Global socket/context state relevant to the connect lifecycle.
`shellOpen`/`iopubOpen`/`controlOpen` record whether a live (not yet
closed) socket object is held; `ctxLive` the ZMQ context. -/
structure ConnState where
  kernelConn : Option Desc
  shellOpen : Bool
  iopubOpen : Bool
  controlOpen : Bool
  ctxLive : Bool
deriving DecidableEq

/-- Process start state: nothing connected. -/
def freshConn : ConnState := ⟨none, false, false, false, false⟩

/-- One constructor per `return` site of `connect_to_kernel` (the generic
`except` fallback at line 279 is unreachable in this model). -/
inductive ConnectResult
  | fileNotFound (path : String)
  | missingFields (fields : List String)
  | shellBindFail (addr cause : String)
  | iopubBindFail (addr cause : String)
  | controlBindFail (addr cause : String)
  | connected (ip shellPort path keyPfx : String)
deriving DecidableEq

/-- Python `str(list_of_str)`, e.g. `['key']`. -/
def pyListRepr (l : List String) : String :=
  "[" ++ String.intercalate ", " (l.map (fun s => "'" ++ s ++ "'")) ++ "]"

def renderConnectResult : ConnectResult → String
  | ConnectResult.fileNotFound path => "❌ Connection file not found: " ++ path
  | ConnectResult.missingFields fields =>
      "❌ Connection file missing required fields: " ++ pyListRepr fields
  | ConnectResult.shellBindFail addr cause =>
      "❌ Failed to connect to shell socket " ++ addr ++ ": " ++ cause
  | ConnectResult.iopubBindFail addr cause =>
      "❌ Failed to connect to iopub socket " ++ addr ++ ": " ++ cause
  | ConnectResult.controlBindFail addr cause =>
      "❌ Failed to connect to control socket " ++ addr ++ ": " ++ cause
  | ConnectResult.connected ip shellPort path keyPfx =>
      "✅ Connected to IPython kernel at " ++ ip ++ ":" ++ shellPort ++
        "\n📁 Connection file: " ++ path ++ "\n🔑 Using key: " ++ keyPfx ++ "..."

def requiredFields : List String :=
  ["ip", "shell_port", "iopub_port", "stdin_port", "control_port", "hb_port", "key"]

/-- `missing_fields` (line 234). -/
def missingOf (d : Desc) : List String :=
  requiredFields.filter (fun f => (lookupKey f d).isNone)

/-- `kernel_connection['k']` on a validated descriptor. -/
def descGet (d : Desc) (k : String) : String := (lookupKey k d).getD ""

/-- `connect_to_kernel(connection_file)`.  `fileExists` models
`connection_path.exists()`; `desc` the parsed JSON; `shellErr`, `iopubErr`
and `controlErr` the exception (if any) raised when connecting the
respective socket.  Mirrors the source order: load into
`kernel_connection`, validate, close the previous session, then create
and connect the three sockets — a socket object created before a failing
`connect` stays open, since no cleanup runs on the error return. -/
def connect_to_kernel (fileExists : Bool) (path : String) (desc : Desc)
    (shellErr iopubErr controlErr : Option String) (st : ConnState) :
    ConnectResult × ConnState :=
  if fileExists = false then (ConnectResult.fileNotFound path, st)
  else
    let st1 : ConnState := { st with kernelConn := some desc }
    if missingOf desc ≠ [] then (ConnectResult.missingFields (missingOf desc), st1)
    else
      let st2 : ConnState :=
        { st1 with shellOpen := false, iopubOpen := false, controlOpen := false,
                   ctxLive := true }
      let shellAddr := "tcp://" ++ descGet desc "ip" ++ ":" ++ descGet desc "shell_port"
      let st3 : ConnState := { st2 with shellOpen := true }
      match shellErr with
      | some e => (ConnectResult.shellBindFail shellAddr e, st3)
      | none =>
        let iopubAddr := "tcp://" ++ descGet desc "ip" ++ ":" ++ descGet desc "iopub_port"
        let st4 : ConnState := { st3 with iopubOpen := true }
        match iopubErr with
        | some e => (ConnectResult.iopubBindFail iopubAddr e, st4)
        | none =>
          let controlAddr :=
            "tcp://" ++ descGet desc "ip" ++ ":" ++ descGet desc "control_port"
          let st5 : ConnState := { st4 with controlOpen := true }
          match controlErr with
          | some e => (ConnectResult.controlBindFail controlAddr e, st5)
          | none =>
            (ConnectResult.connected (descGet desc "ip") (descGet desc "shell_port")
               path ((descGet desc "key").take 8), st5)

/-- `kernel_status()`.  Returns `none` for an uncaught `KeyError` (the
function reads `kernel_connection['ip']` and `['shell_port']` with no
`try`); `if not kernel_connection` treats `None` and the empty dict as
not connected. -/
def kernel_status (kernelConn : Option Desc) : Option String :=
  match kernelConn with
  | none => some "❌ Not connected to any kernel"
  | some d =>
    if d = [] then some "❌ Not connected to any kernel"
    else
      match lookupKey "ip" d, lookupKey "shell_port" d with
      | some ip, some sp => some ("✅ Connected to kernel at " ++ ip ++ ":" ++ sp)
      | _, _ => none

/-! ## Auxiliary definitions used by the statements -/

/-- A poll event that is a status/idle broadcast for the given request id
(with enough segments to be processed). -/
def isOwnIdle (ourId : String) (e : Option KernelMsg) : Bool :=
  match e with
  | none => false
  | some m =>
    if 7 ≤ m.nSegments ∧ m.parentMsgId = some ourId ∧
        m.msgType = some "status" ∧ m.executionState = some "idle" then true
    else false

/-- Accumulators and empty-poll counter after running the wait-loop body
over a prefix of the poll trace. -/
def runPolls (ourId : String) (pre : List (Option KernelMsg)) : ExecState × Nat :=
  pre.foldl (pollStep ourId) (initExecState, 0)

/-! ## Concrete fixtures for witnesses and counterexamples -/

/-- A complete connection descriptor. -/
def descFull : Desc :=
  [("ip", "127.0.0.1"), ("shell_port", "5555"), ("iopub_port", "5556"),
   ("stdin_port", "5557"), ("control_port", "5558"), ("hb_port", "5559"),
   ("key", "abc123")]

/-- A descriptor missing exactly the `key` field. -/
def descNoKey : Desc :=
  [("ip", "127.0.0.1"), ("shell_port", "5555"), ("iopub_port", "5556"),
   ("stdin_port", "5557"), ("control_port", "5558"), ("hb_port", "5559")]

/-- A status/idle IOPub message replying to request `pid`. -/
def idleMsgFor (pid : String) : KernelMsg :=
  { nSegments := 7, msgType := some "status", parentMsgId := some pid,
    dataTextPlain := none, streamText := none, ename := none, evalue := none,
    traceback := [], executionState := some "idle" }

/-- A stream IOPub message replying to request `pid`. -/
def streamMsgFor (pid text : String) : KernelMsg :=
  { nSegments := 7, msgType := some "stream", parentMsgId := some pid,
    dataTextPlain := none, streamText := some text, ename := none, evalue := none,
    traceback := [], executionState := none }

/-- A tracked execution that has reached its idle status with no output. -/
def doneState : ExecState := ⟨[], [], [], true, false⟩

/-! ## Helper lemmas: list folds -/

theorem foldl_snoc_id (l init : List String) :
    l.foldl (fun ps s => ps ++ [s]) init = init ++ l := by
  induction l generalizing init with
  | nil => simp
  | cons x xs ih => simp [ih]

theorem foldl_snoc_err (l init : List String) :
    l.foldl (fun ps e => ps ++ ["❌ " ++ e]) init = init ++ l.map (fun e => "❌ " ++ e) := by
  induction l generalizing init with
  | nil => simp
  | cons x xs ih => simp [ih]

theorem outputPartsExec_eq (streams results errors : List String) :
    outputPartsExec streams results errors =
      streams ++ results ++ errors.map (fun e => "❌ " ++ e) := by
  unfold outputPartsExec
  rw [foldl_snoc_id, foldl_snoc_id, foldl_snoc_err]
  simp

theorem outputPartsState_eq (st : ExecState) :
    outputPartsState st = st.streams ++ st.results ++ st.errors.map (fun e => "❌ " ++ e) := by
  unfold outputPartsState
  rw [foldl_snoc_err]
  simp

/-! ## Helper lemmas: the tracker association list -/

theorem lookupKey_mapUpdate_self (m : PendMap) (k : String) (f : ExecState → ExecState)
    (v : ExecState) (h : lookupKey k m = some v) :
    lookupKey k (mapUpdate m k f) = some (f v) := by
  induction m with
  | nil => simp [lookupKey] at h
  | cons kv rest ih =>
    obtain ⟨k', v'⟩ := kv
    by_cases hk : k' = k
    · subst hk
      simp [lookupKey] at h
      simp [mapUpdate, lookupKey, h]
    · simp [lookupKey, hk] at h
      simp [mapUpdate, lookupKey, hk, ih h]

theorem lookupKey_mapUpdate_ne (m : PendMap) (k a : String) (f : ExecState → ExecState)
    (h : a ≠ k) : lookupKey a (mapUpdate m k f) = lookupKey a m := by
  induction m with
  | nil => simp [mapUpdate]
  | cons kv rest ih =>
    obtain ⟨k', v'⟩ := kv
    by_cases hk : k' = k
    · subst hk
      have hne : k' ≠ a := fun hh => h hh.symm
      simp [mapUpdate, lookupKey, hne]
    · simp [mapUpdate, lookupKey, hk, ih]

theorem mapUpdate_keys (m : PendMap) (k : String) (f : ExecState → ExecState) :
    (mapUpdate m k f).map Prod.fst = m.map Prod.fst := by
  induction m with
  | nil => simp [mapUpdate]
  | cons kv rest ih =>
    obtain ⟨k', v'⟩ := kv
    by_cases hk : k' = k
    · subst hk; simp [mapUpdate]
    · simp [mapUpdate, hk, ih]

theorem lookupKey_isSome_iff (k : String) (m : List (String × β)) :
    (lookupKey k m).isSome = true ↔ k ∈ m.map Prod.fst := by
  induction m with
  | nil => simp [lookupKey]
  | cons kv rest ih =>
    obtain ⟨k', v'⟩ := kv
    by_cases hk : k' = k
    · subst hk; simp [lookupKey]
    · have hne : k ≠ k' := fun hh => hk hh.symm
      simp only [lookupKey, if_neg hk, List.map_cons, List.mem_cons]
      rw [ih]
      simp [hne]

theorem lookupKey_eq_none_iff (k : String) (m : List (String × β)) :
    lookupKey k m = none ↔ k ∉ m.map Prod.fst := by
  rw [← lookupKey_isSome_iff]
  cases h : lookupKey k m <;> simp [h]

theorem lookupKey_mapErase_self (m : PendMap) (k : String)
    (h : (m.map Prod.fst).Nodup) : lookupKey k (mapErase m k) = none := by
  induction m with
  | nil => simp [mapErase, lookupKey]
  | cons kv rest ih =>
    obtain ⟨k', v'⟩ := kv
    simp only [List.map_cons, List.nodup_cons] at h
    by_cases hk : k' = k
    · subst hk
      simp only [mapErase, if_pos rfl]
      rw [lookupKey_eq_none_iff]
      exact h.1
    · simp [mapErase, hk, lookupKey, ih h.2]

/-! ## Helper lemmas: the IOPub drain -/

theorem iopubStep_keys (pend : PendMap) (m : KernelMsg) :
    (iopubStep pend m).map Prod.fst = pend.map Prod.fst := by
  unfold iopubStep
  split
  · rfl
  · split
    · rfl
    · split
      · exact mapUpdate_keys _ _ _
      · rfl

theorem foldl_iopubStep_keys (inbox : List KernelMsg) (pend : PendMap) :
    (inbox.foldl iopubStep pend).map Prod.fst = pend.map Prod.fst := by
  induction inbox generalizing pend with
  | nil => rfl
  | cons m rest ih => rw [List.foldl_cons, ih, iopubStep_keys]

theorem process_iopub_keys (iopubOpen : Bool) (pend : PendMap) (inbox : List KernelMsg) :
    (process_iopub_messages iopubOpen pend inbox).map Prod.fst = pend.map Prod.fst := by
  unfold process_iopub_messages
  split
  · rfl
  · exact foldl_iopubStep_keys _ _

theorem iopubStep_lookup_ne (pend : PendMap) (m : KernelMsg) (a : String)
    (h : m.parentMsgId ≠ some a) :
    lookupKey a (iopubStep pend m) = lookupKey a pend := by
  unfold iopubStep
  split
  · rfl
  · split
    · rfl
    · rename_i mid heq
      split
      · apply lookupKey_mapUpdate_ne
        intro hak
        exact h (by rw [heq, hak])
      · rfl

theorem foldl_iopubStep_lookup_ne (inbox : List KernelMsg) (pend : PendMap) (a : String)
    (h : ∀ m ∈ inbox, m.parentMsgId ≠ some a) :
    lookupKey a (inbox.foldl iopubStep pend) = lookupKey a pend := by
  induction inbox generalizing pend with
  | nil => rfl
  | cons m rest ih =>
    rw [List.foldl_cons, ih _ (fun x hx => h x (List.mem_cons_of_mem _ hx)),
      iopubStep_lookup_ne _ _ _ (h m (List.mem_cons_self _ _))]

/-! ## Helper lemmas: the wait-loop dispatch -/

theorem dispatchMsg_done (m : KernelMsg) (st : ExecState)
    (h : (dispatchMsg m st).done = true) :
    st.done = true ∨ (m.msgType = some "status" ∧ m.executionState = some "idle") := by
  unfold dispatchMsg at h
  dsimp only at h
  split at h
  · split at h <;> simp_all
  · split at h
    · split at h <;> simp_all
    · split at h
      · simp_all
      · split at h
        · split at h <;> simp_all
        · simp_all

theorem pollStep_done (ourId : String) (s : ExecState × Nat) (e : Option KernelMsg)
    (h : (pollStep ourId s e).1.done = true) :
    s.1.done = true ∨ isOwnIdle ourId e = true := by
  unfold pollStep at h
  match e with
  | none => exact Or.inl h
  | some m =>
    simp only at h
    split at h
    · rename_i hseg
      split at h
      · rename_i hpar
        rcases dispatchMsg_done m s.1 h with hd | ⟨hty, hst⟩
        · exact Or.inl hd
        · exact Or.inr (by simp [isOwnIdle, hseg, hpar, hty, hst])
      · exact Or.inl h
    · exact Or.inl h

theorem execLoop_of_done (ourId : String) (events : List (Option KernelMsg))
    (acc : ExecState) (tc : Nat) (hd : acc.done = true) :
    execLoop ourId events acc tc = LoopResult.completed acc := by
  conv_lhs => unfold execLoop
  simp [hd]

theorem execLoop_nil (ourId : String) (acc : ExecState) (tc : Nat)
    (hnd : acc.done = false) :
    execLoop ourId [] acc tc = LoopResult.timedOut acc := by
  conv_lhs => unfold execLoop
  simp only [hnd, Bool.false_eq_true, if_false]
  split <;> rfl

theorem execLoop_at_bound (ourId : String) (events : List (Option KernelMsg))
    (acc : ExecState) (tc : Nat) (hnd : acc.done = false) (htc : 100 ≤ tc) :
    execLoop ourId events acc tc = LoopResult.timedOut acc := by
  conv_lhs => unfold execLoop
  simp [hnd, htc]

theorem execLoop_cons_step (ourId : String) (e : Option KernelMsg)
    (rest : List (Option KernelMsg)) (acc : ExecState) (tc : Nat)
    (hnd : acc.done = false) (htc : ¬100 ≤ tc) :
    execLoop ourId (e :: rest) acc tc =
      execLoop ourId rest (pollStep ourId (acc, tc) e).1 (pollStep ourId (acc, tc) e).2 := by
  conv_lhs => unfold execLoop
  simp [hnd, htc]

/-- The generalized wait-loop case split: starting not-done, the loop
either completes (and an own idle status occurs in the trace) or times
out with the accumulators reached after some processed prefix. -/
theorem execLoop_cases (ourId : String) (events : List (Option KernelMsg))
    (acc : ExecState) (tc : Nat) (hnd : acc.done = false) :
    (∃ acc', execLoop ourId events acc tc = LoopResult.completed acc'
        ∧ events.any (isOwnIdle ourId) = true)
    ∨ (∃ pre post, events = pre ++ post
        ∧ execLoop ourId events acc tc =
            LoopResult.timedOut (pre.foldl (pollStep ourId) (acc, tc)).1) := by
  induction events generalizing acc tc with
  | nil =>
    exact Or.inr ⟨[], [], rfl, execLoop_nil ourId acc tc hnd⟩
  | cons e rest ih =>
    by_cases htc : 100 ≤ tc
    · exact Or.inr ⟨[], e :: rest, rfl, execLoop_at_bound ourId _ acc tc hnd htc⟩
    · have hun := execLoop_cons_step ourId e rest acc tc hnd htc
      by_cases hd : (pollStep ourId (acc, tc) e).1.done = true
      · refine Or.inl ⟨(pollStep ourId (acc, tc) e).1, ?_, ?_⟩
        · rw [hun]
          exact execLoop_of_done ourId rest _ _ hd
        · rcases pollStep_done ourId (acc, tc) e hd with h1 | h2
          · rw [hnd] at h1; cases h1
          · simp [List.any_cons, h2]
      · have hnd' : (pollStep ourId (acc, tc) e).1.done = false := by
          simpa using hd
        rcases ih (pollStep ourId (acc, tc) e).1 (pollStep ourId (acc, tc) e).2 hnd' with
          ⟨acc', hc, hany⟩ | ⟨pre, post, hsplit, hto⟩
        · exact Or.inl ⟨acc', by rw [hun]; exact hc, by simp [List.any_cons, hany]⟩
        · refine Or.inr ⟨e :: pre, post, by simp [hsplit], ?_⟩
          rw [hun, hto]
          simp

/-! ## Helper lemmas: HMAC streaming and hex digests -/

theorem foldl_hmacUpdate (l : List Bytes) (k b : Bytes) :
    l.foldl hmacUpdate ⟨k, b⟩ = ⟨k, b ++ l.flatten⟩ := by
  induction l generalizing b with
  | nil => simp
  | cons x xs ih => simp [hmacUpdate, ih, List.append_assoc]

theorem signHex_eq_concat (msgLst : List Bytes) (key : String) :
    signHex msgLst key = hexLower (hmacSha256 (utf8Bytes key) msgLst.flatten) := by
  unfold signHex hmacNew
  rw [foldl_hmacUpdate]
  simp [hmacHexdigest]

theorem hexDigit_mem : ∀ n, n < 16 → hexDigits.contains (hexDigits.getD n '0') = true := by
  decide

theorem hexLower_all_hex (bs : Bytes) :
    (hexLower bs).toList.all (fun ch => hexDigits.contains ch) = true := by
  unfold hexLower
  show (List.flatten (bs.map byteToHex)).all (fun ch => hexDigits.contains ch) = true
  rw [List.all_eq_true]
  intro ch hch
  rw [List.mem_flatten] at hch
  obtain ⟨l, hl, hchl⟩ := hch
  rw [List.mem_map] at hl
  obtain ⟨b, _, rfl⟩ := hl
  simp only [byteToHex, List.mem_cons, List.not_mem_nil, or_false] at hchl
  rcases hchl with h | h
  · rw [h]; exact hexDigit_mem _ (Nat.mod_lt _ (by norm_num))
  · rw [h]; exact hexDigit_mem _ (Nat.mod_lt _ (by norm_num))

/-! ## Helper lemmas: `check_execution` branch shapes -/

theorem check_execution_of_none (iopubOpen : Bool) (pend : PendMap)
    (inbox : List KernelMsg) (id : String) (h : lookupKey id pend = none) :
    check_execution iopubOpen pend inbox id = (CheckResult.unknown, pend) := by
  unfold check_execution
  rw [if_pos (by simp [h])]

theorem check_execution_of_some (iopubOpen : Bool) (pend : PendMap)
    (inbox : List KernelMsg) (id : String) (st : ExecState)
    (hpend : lookupKey id pend ≠ none)
    (hst : lookupKey id (process_iopub_messages iopubOpen pend inbox) = some st) :
    check_execution iopubOpen pend inbox id =
      if st.done then
        (if outputPartsState st = [] then CheckResult.finishedNoOutput
         else CheckResult.finished (outputPartsState st),
         mapErase (process_iopub_messages iopubOpen pend inbox) id)
      else if outputPartsState st = [] then
        (CheckResult.stillRunning, process_iopub_messages iopubOpen pend inbox)
      else
        (CheckResult.partialOutput (outputPartsState st),
         process_iopub_messages iopubOpen pend inbox) := by
  unfold check_execution
  rw [if_neg (by simp [hpend]), hst]

/-- A tracked entry survives the drain: the lookup after
`process_iopub_messages` still succeeds. -/
theorem lookup_after_drain (iopubOpen : Bool) (pend : PendMap)
    (inbox : List KernelMsg) (id : String) (hpend : lookupKey id pend ≠ none) :
    ∃ st, lookupKey id (process_iopub_messages iopubOpen pend inbox) = some st := by
  have h1 : (lookupKey id pend).isSome = true := by
    cases h : lookupKey id pend
    · exact absurd h hpend
    · rfl
  have h2 : (lookupKey id (process_iopub_messages iopubOpen pend inbox)).isSome = true := by
    rw [lookupKey_isSome_iff, process_iopub_keys]
    exact (lookupKey_isSome_iff id pend).mp h1
  exact Option.isSome_iff_exists.mp h2

/-! ## Claim theorems -/

/-- C7: `sign_message` computes the HMAC-SHA256 keyed with the UTF-8
encoding of the shared secret over the concatenation of exactly the
header, parent-header, metadata and content segments in that order, and
returns the lowercase hexadecimal digest (every output character is a
lowercase hex digit); it is deterministic — as a pure function it depends
only on the concatenated segment bytes and the key, so identical inputs
give the identical signature (third conjunct: even re-splitting the same
bytes differently cannot change it). -/
theorem sign_message_hmac_concat (h p m c : Bytes) (key : String) :
    sign_message [h, p, m, c] key =
      utf8Bytes (hexLower (hmacSha256 (utf8Bytes key) (h ++ p ++ m ++ c)))
    ∧ (signHex [h, p, m, c] key).toList.all (fun ch => hexDigits.contains ch) = true
    ∧ sign_message [h, p, m, c] key = sign_message [h ++ p ++ m ++ c] key := by
  have hc : signHex [h, p, m, c] key =
      hexLower (hmacSha256 (utf8Bytes key) (h ++ p ++ m ++ c)) := by
    rw [signHex_eq_concat]
    simp [List.append_assoc]
  refine ⟨?_, ?_, ?_⟩
  · unfold sign_message
    rw [hc]
  · rw [hc]
    exact hexLower_all_hex _
  · unfold sign_message
    rw [hc, signHex_eq_concat]
    simp

/-- C4: in a drain pass, an inbound message is folded only into the
tracked entry keyed by its `parent_header.msg_id`: any entry under a
different key is untouched over a whole drain (first conjunct — hence
delivering B's replies never alters A's fragments), a message with no or
an untracked parent id changes nothing (second and third conjuncts), and
a processed message updates exactly the matching entry (fourth
conjunct). -/
theorem demux_routes_only_matching (pend : PendMap) (inbox : List KernelMsg) (a : String)
    (hOther : ∀ m ∈ inbox, m.parentMsgId ≠ some a) :
    lookupKey a (process_iopub_messages true pend inbox) = lookupKey a pend
    ∧ (∀ m : KernelMsg, m.parentMsgId = none → iopubStep pend m = pend)
    ∧ (∀ m : KernelMsg, ∀ k, m.parentMsgId = some k → lookupKey k pend = none →
        iopubStep pend m = pend)
    ∧ (∀ m : KernelMsg, ∀ k, 7 ≤ m.nSegments → m.parentMsgId = some k →
        lookupKey k pend ≠ none →
        iopubStep pend m = mapUpdate pend k (dispatchMsg m)) := by
  refine ⟨?_, ?_, ?_, ?_⟩
  · unfold process_iopub_messages
    split
    · rfl
    · exact foldl_iopubStep_lookup_ne inbox pend a hOther
  · intro m hm
    unfold iopubStep
    split
    · rfl
    · rw [hm]
  · intro m k hk hnone
    unfold iopubStep
    split
    · rfl
    · rw [hk]
      simp [hnone]
  · intro m k hseg hk hsome
    have hisSome : (lookupKey k pend).isSome = true := by
      cases hl : lookupKey k pend
      · exact absurd hl hsome
      · rfl
    unfold iopubStep
    rw [if_neg (by omega), hk]
    simp [hisSome]

/-- Witness for C4 at a concrete tracker and inbox: entry `A` is
untouched by a drain delivering a stream message for `B`. -/
theorem demux_routes_only_matching_witness :
    (∀ m ∈ [streamMsgFor "B" "hello"], m.parentMsgId ≠ some "A")
    ∧ lookupKey "A" (process_iopub_messages true [("A", initExecState)]
        [streamMsgFor "B" "hello"]) = lookupKey "A" [("A", initExecState)] :=
  ⟨by decide,
   (demux_routes_only_matching [("A", initExecState)] [streamMsgFor "B" "hello"] "A"
     (by decide)).1⟩

/-- C5: `check_execution` returns `UnknownExecution` exactly when the id
has no tracker entry (first conjunct, an iff — covering never-issued ids
and already-removed ids alike); when the drain has set the completion
flag, the poll is terminal and removes the entry (third conjunct), and
after any terminal poll a second poll with the same id is
`UnknownExecution` (second conjunct), so the entry is removed exactly
once.  The `Nodup` hypothesis is the Python dict invariant of unique
keys. -/
theorem check_execution_unknown_and_removed_once (iopubOpen : Bool) (pend : PendMap)
    (inbox : List KernelMsg) (id : String) (hnd : (pend.map Prod.fst).Nodup) :
    ((check_execution iopubOpen pend inbox id).1 = CheckResult.unknown ↔
      lookupKey id pend = none)
    ∧ (isTerminal (check_execution iopubOpen pend inbox id).1 = true →
        ∀ inbox2 : List KernelMsg,
          (check_execution iopubOpen (check_execution iopubOpen pend inbox id).2
            inbox2 id).1 = CheckResult.unknown)
    ∧ (∀ st : ExecState,
        lookupKey id (process_iopub_messages iopubOpen pend inbox) = some st →
        st.done = true → lookupKey id pend ≠ none →
        isTerminal (check_execution iopubOpen pend inbox id).1 = true
        ∧ (check_execution iopubOpen pend inbox id).2 =
            mapErase (process_iopub_messages iopubOpen pend inbox) id) := by
  by_cases hlk : lookupKey id pend = none
  · rw [check_execution_of_none _ _ _ _ hlk]
    refine ⟨by simp [hlk], ?_, ?_⟩
    · intro hterm
      exact absurd hterm (by simp [isTerminal])
    · intro st _ _ hne
      exact absurd hlk hne
  · obtain ⟨st, hst⟩ := lookup_after_drain iopubOpen pend inbox id hlk
    have hshape := check_execution_of_some iopubOpen pend inbox id st hlk hst
    by_cases hdone : st.done = true
    · have hnd1 : ((process_iopub_messages iopubOpen pend inbox).map Prod.fst).Nodup := by
        rw [process_iopub_keys]; exact hnd
      have hres1 : (check_execution iopubOpen pend inbox id).1 =
          (if outputPartsState st = [] then CheckResult.finishedNoOutput
           else CheckResult.finished (outputPartsState st)) := by
        rw [hshape, if_pos hdone]
      have hres2 : (check_execution iopubOpen pend inbox id).2 =
          mapErase (process_iopub_messages iopubOpen pend inbox) id := by
        rw [hshape, if_pos hdone]
      have herase : lookupKey id
          (mapErase (process_iopub_messages iopubOpen pend inbox) id) = none :=
        lookupKey_mapErase_self _ _ hnd1
      refine ⟨?_, ?_, ?_⟩
      · constructor
        · intro hu
          rw [hres1] at hu
          split at hu <;> exact CheckResult.noConfusion hu
        · intro h
          exact absurd h hlk
      · intro _ inbox2
        rw [hres2, check_execution_of_none _ _ _ _ herase]
      · intro st' hst' hdone' _
        refine ⟨?_, hres2⟩
        rw [hres1]
        split <;> rfl
    · have hres1 : (check_execution iopubOpen pend inbox id).1 =
          (if outputPartsState st = [] then CheckResult.stillRunning
           else CheckResult.partialOutput (outputPartsState st)) := by
        rw [hshape, if_neg hdone]
        split <;> rfl
      refine ⟨?_, ?_, ?_⟩
      · constructor
        · intro hu
          rw [hres1] at hu
          split at hu <;> exact CheckResult.noConfusion hu
        · intro h
          exact absurd h hlk
      · intro hterm
        exfalso
        rw [hres1] at hterm
        split at hterm <;> simp [isTerminal] at hterm
      · intro st' hst' hdone' _
        exfalso
        have hss : st = st' := Option.some.inj (hst.symm.trans hst')
        rw [← hss] at hdone'
        exact hdone hdone'

/-- Witness for C5 at a concrete tracker: a finished entry is terminal,
removed, and a second poll is unknown. -/
theorem check_execution_unknown_witness :
    ([("A", doneState)].map Prod.fst).Nodup
    ∧ ((check_execution true [("A", doneState)] [] "A").1 = CheckResult.unknown ↔
        lookupKey "A" [("A", doneState)] = none)
    ∧ (isTerminal (check_execution true [("A", doneState)] [] "A").1 = true →
        ∀ inbox2 : List KernelMsg,
          (check_execution true (check_execution true [("A", doneState)] [] "A").2
            inbox2 "A").1 = CheckResult.unknown) :=
  ⟨by decide,
   (check_execution_unknown_and_removed_once true [("A", doneState)] [] "A" (by decide)).1,
   (check_execution_unknown_and_removed_once true [("A", doneState)] [] "A" (by decide)).2.1⟩

/-- C6: on completion (blocking path, and terminal `check_execution`),
the output is the fragments in the order streams, then results, then
errors each carrying the distinct `"❌ "` prefix (joined with newlines by
the renderers); the all-empty case is the distinct
`"✅ Code executed successfully (no output)"` success value. -/
theorem completion_output_ordering
    (streams results errors : List String) (st : ExecState)
    (hdr cnt : Bytes) (key ourId : String) (events : List (Option KernelMsg))
    (acc : ExecState) (iopubOpen : Bool) (pend : PendMap) (inbox : List KernelMsg)
    (id : String) :
    outputPartsExec streams results errors =
      streams ++ results ++ errors.map (fun e => "❌ " ++ e)
    ∧ outputPartsState st =
        st.streams ++ st.results ++ st.errors.map (fun e => "❌ " ++ e)
    ∧ renderExecResult ExecResult.doneNoOutput = "✅ Code executed successfully (no output)"
    ∧ (execLoop ourId events initExecState 0 = LoopResult.completed acc →
        (execute_code true hdr cnt key ourId events).1 =
          (if acc.streams = [] ∧ acc.results = [] ∧ acc.errors = [] then
            ExecResult.doneNoOutput
           else ExecResult.doneOutput
             (acc.streams ++ acc.results ++ acc.errors.map (fun e => "❌ " ++ e))))
    ∧ (lookupKey id pend ≠ none →
        lookupKey id (process_iopub_messages iopubOpen pend inbox) = some st →
        st.done = true →
        (check_execution iopubOpen pend inbox id).1 =
          (if st.streams = [] ∧ st.results = [] ∧ st.errors = [] then
            CheckResult.finishedNoOutput
           else CheckResult.finished
             (st.streams ++ st.results ++ st.errors.map (fun e => "❌ " ++ e)))) := by
  refine ⟨outputPartsExec_eq streams results errors, outputPartsState_eq st, rfl, ?_, ?_⟩
  · intro hE
    have hrw := outputPartsExec_eq acc.streams acc.results acc.errors
    by_cases hempty : acc.streams = [] ∧ acc.results = [] ∧ acc.errors = []
    · have hnil : outputPartsExec acc.streams acc.results acc.errors = [] := by
        rw [hrw, hempty.1, hempty.2.1, hempty.2.2]
        simp
      simp [execute_code, hE, hnil, hempty, outputPartsExec]
    · have hnnil : outputPartsExec acc.streams acc.results acc.errors ≠ [] := by
        rw [hrw]
        intro hn
        obtain ⟨h12, h3⟩ := List.append_eq_nil.mp hn
        obtain ⟨h1, h2⟩ := List.append_eq_nil.mp h12
        exact hempty ⟨h1, h2, List.map_eq_nil_iff.mp h3⟩
      simp [execute_code, hE, hnnil, hempty, hrw]
  · intro hne hst hdone
    have hshape := check_execution_of_some iopubOpen pend inbox id st hne hst
    have hrw := outputPartsState_eq st
    by_cases hempty : st.streams = [] ∧ st.results = [] ∧ st.errors = []
    · have hnil : outputPartsState st = [] := by
        rw [hrw, hempty.1, hempty.2.1, hempty.2.2]
        simp
      simp [hshape, hdone, hnil, hempty]
    · have hnnil : outputPartsState st ≠ [] := by
        rw [hrw]
        intro hn
        obtain ⟨h12, h3⟩ := List.append_eq_nil.mp hn
        obtain ⟨h1, h2⟩ := List.append_eq_nil.mp h12
        exact hempty ⟨h1, h2, List.map_eq_nil_iff.mp h3⟩
      simp [hshape, hdone, hnnil, hempty, hrw]

/-- Witness for C6 at concrete inputs: a lone idle reply completes the
blocking call with the no-output success value, and a finished tracked
entry polls to the no-output success value. -/
theorem completion_output_ordering_witness :
    execLoop "A" [some (idleMsgFor "A")] initExecState 0 = LoopResult.completed doneState
    ∧ (execute_code true [] [] "k" "A" [some (idleMsgFor "A")]).1 = ExecResult.doneNoOutput
    ∧ lookupKey "A" (process_iopub_messages true [("A", doneState)] []) = some doneState
    ∧ (check_execution true [("A", doneState)] [] "A").1 = CheckResult.finishedNoOutput := by
  refine ⟨by decide, ?_, by decide, ?_⟩
  · have h := (completion_output_ordering [] [] [] doneState [] [] "k" "A"
      [some (idleMsgFor "A")] doneState true [("A", doneState)] [] "A").2.2.2.1 (by decide)
    simpa using h
  · have h := (completion_output_ordering [] [] [] doneState [] [] "k" "A"
      [some (idleMsgFor "A")] doneState true [("A", doneState)] [] "A").2.2.2.2
      (by decide) (by decide) (by decide)
    simpa using h

/-- C3: for every poll trace, `execute_code` either observes the idle
status for its own request and returns a completion outcome, or exits
the loop via the consecutive-empty-poll bound (100 polls of 10 ms) and
returns a `TimedOut` outcome — a distinct constructor from every
completion outcome — carrying exactly the fragments accumulated over the
processed prefix of the trace; the loop is a total function of the trace,
so it never blocks beyond the bound. -/
theorem execute_blocking_completes_or_times_out (hdr cnt : Bytes) (key ourId : String)
    (events : List (Option KernelMsg)) :
    (∃ acc, execLoop ourId events initExecState 0 = LoopResult.completed acc
        ∧ events.any (isOwnIdle ourId) = true
        ∧ ((execute_code true hdr cnt key ourId events).1 = ExecResult.doneNoOutput
           ∨ (execute_code true hdr cnt key ourId events).1 =
               ExecResult.doneOutput (outputPartsExec acc.streams acc.results acc.errors)))
    ∨ (∃ pre post, events = pre ++ post
        ∧ execLoop ourId events initExecState 0 = LoopResult.timedOut (runPolls ourId pre).1
        ∧ (execute_code true hdr cnt key ourId events).1 =
            (if outputPartsExec (runPolls ourId pre).1.streams (runPolls ourId pre).1.results
                 (runPolls ourId pre).1.errors = [] then
              ExecResult.timedOutNoOutput
             else
              ExecResult.timedOutPartial
                (outputPartsExec (runPolls ourId pre).1.streams (runPolls ourId pre).1.results
                  (runPolls ourId pre).1.errors))) := by
  rcases execLoop_cases ourId events initExecState 0 rfl with
    ⟨acc, hc, hany⟩ | ⟨pre, post, hsplit, hto⟩
  · refine Or.inl ⟨acc, hc, hany, ?_⟩
    by_cases hp : outputPartsExec acc.streams acc.results acc.errors = []
    · exact Or.inl (by simp [execute_code, hc, hp])
    · exact Or.inr (by simp [execute_code, hc, hp])
  · have hto' : execLoop ourId events initExecState 0 =
        LoopResult.timedOut (runPolls ourId pre).1 := hto
    refine Or.inr ⟨pre, post, hsplit, hto', ?_⟩
    by_cases hp : outputPartsExec (runPolls ourId pre).1.streams (runPolls ourId pre).1.results
        (runPolls ourId pre).1.errors = []
    · simp [execute_code, hto', hp]
    · simp [execute_code, hto', hp]

/-- C8: every envelope sent by `execute_code`, `execute_code_nonblocking`
and `interrupt_execution` is exactly the 7 segments
[empty routing prefix, `<IDS|MSG>` delimiter, signature, header,
parent-header, metadata, content] in that order. -/
theorem envelopes_are_seven_segments
    (hdrE cntE hdrN cntN hdrI : Bytes) (keyE keyN keyI : String)
    (ourId idN idI : String) (events : List (Option KernelMsg))
    (pendN pendI : PendMap)
    (hTracked : lookupKey idI pendI ≠ none) :
    (execute_code true hdrE cntE keyE ourId events).2 =
      [[[], delimSeg, sign_message [hdrE, emptyBraces, emptyBraces, cntE] keyE,
        hdrE, emptyBraces, emptyBraces, cntE]]
    ∧ (∀ env ∈ (execute_code true hdrE cntE keyE ourId events).2, env.length = 7)
    ∧ (execute_code_nonblocking true pendN idN hdrN cntN keyN).2.2 =
      [[[], delimSeg, sign_message [hdrN, emptyBraces, emptyBraces, cntN] keyN,
        hdrN, emptyBraces, emptyBraces, cntN]]
    ∧ (∀ env ∈ (execute_code_nonblocking true pendN idN hdrN cntN keyN).2.2, env.length = 7)
    ∧ (interrupt_execution true pendI idI hdrI keyI).2.2 =
      [[[], delimSeg, sign_message [hdrI, emptyBraces, emptyBraces, emptyBraces] keyI,
        hdrI, emptyBraces, emptyBraces, emptyBraces]]
    ∧ (∀ env ∈ (interrupt_execution true pendI idI hdrI keyI).2.2, env.length = 7) := by
  have hE : (execute_code true hdrE cntE keyE ourId events).2 =
      [[[], delimSeg, sign_message [hdrE, emptyBraces, emptyBraces, cntE] keyE,
        hdrE, emptyBraces, emptyBraces, cntE]] := by
    cases hL : execLoop ourId events initExecState 0 <;>
      simp [execute_code, hL] <;> split <;> rfl
  have hN : (execute_code_nonblocking true pendN idN hdrN cntN keyN).2.2 =
      [[[], delimSeg, sign_message [hdrN, emptyBraces, emptyBraces, cntN] keyN,
        hdrN, emptyBraces, emptyBraces, cntN]] := by
    simp [execute_code_nonblocking]
  have hImask : (lookupKey idI pendI).isNone = false := by
    cases hl : lookupKey idI pendI
    · exact absurd hl hTracked
    · rfl
  have hI : (interrupt_execution true pendI idI hdrI keyI).2.2 =
      [[[], delimSeg, sign_message [hdrI, emptyBraces, emptyBraces, emptyBraces] keyI,
        hdrI, emptyBraces, emptyBraces, emptyBraces]] := by
    simp [interrupt_execution, hImask]
  refine ⟨hE, ?_, hN, ?_, hI, ?_⟩
  · intro env henv
    rw [hE, List.mem_singleton] at henv
    subst henv
    rfl
  · intro env henv
    rw [hN, List.mem_singleton] at henv
    subst henv
    rfl
  · intro env henv
    rw [hI, List.mem_singleton] at henv
    subst henv
    rfl

/-- Witness for C8: the interrupt envelope at a concretely tracked id. -/
theorem envelopes_are_seven_segments_witness :
    lookupKey "A" [("A", initExecState)] ≠ none
    ∧ (interrupt_execution true [("A", initExecState)] "A" [] "k").2.2 =
      [[[], delimSeg, sign_message [[], emptyBraces, emptyBraces, emptyBraces] "k",
        [], emptyBraces, emptyBraces, emptyBraces]] :=
  ⟨by decide,
   (envelopes_are_seven_segments [] [] [] [] [] "k" "k" "k" "A" "A" "A" [] []
     [("A", initExecState)] (by decide)).2.2.2.2.1⟩

/-- C9: with a live connection, `interrupt_execution` on an untracked id
returns the no-pending error and sends nothing on the control channel;
on a tracked id it sends exactly one signed interrupt envelope, sets the
entry's `interrupted` flag (the `with`-update leaves its fragments and
completion flag unchanged), and touches no other entry. -/
theorem interrupt_tracked_and_untracked (pend : PendMap) (id : String) (hdr : Bytes)
    (key : String) :
    (lookupKey id pend = none →
      interrupt_execution true pend id hdr key = (InterruptResult.noPending id, pend, []))
    ∧ (∀ st, lookupKey id pend = some st →
        interrupt_execution true pend id hdr key =
          (InterruptResult.sent id,
           mapUpdate pend id (fun s => { s with interrupted := true }),
           [[[], delimSeg, sign_message [hdr, emptyBraces, emptyBraces, emptyBraces] key,
             hdr, emptyBraces, emptyBraces, emptyBraces]])
        ∧ lookupKey id (interrupt_execution true pend id hdr key).2.1 =
            some { st with interrupted := true }
        ∧ (∀ b, b ≠ id →
            lookupKey b (interrupt_execution true pend id hdr key).2.1 =
              lookupKey b pend)) := by
  constructor
  · intro hnone
    simp [interrupt_execution, hnone]
  · intro st hst
    have h1 : (lookupKey id pend).isNone = false := by rw [hst]; rfl
    have heq : interrupt_execution true pend id hdr key =
        (InterruptResult.sent id,
         mapUpdate pend id (fun s => { s with interrupted := true }),
         [[[], delimSeg, sign_message [hdr, emptyBraces, emptyBraces, emptyBraces] key,
           hdr, emptyBraces, emptyBraces, emptyBraces]]) := by
      simp [interrupt_execution, h1]
    refine ⟨heq, ?_, ?_⟩
    · rw [heq]
      exact lookupKey_mapUpdate_self pend id _ st hst
    · intro b hb
      rw [heq]
      exact lookupKey_mapUpdate_ne pend id b _ hb

/-- Witness for C9 at a concrete tracker. -/
theorem interrupt_tracked_witness :
    lookupKey "A" [("A", initExecState)] = some initExecState
    ∧ lookupKey "A" (interrupt_execution true [("A", initExecState)] "A" [] "k").2.1 =
        some { initExecState with interrupted := true } :=
  ⟨by decide,
   ((interrupt_tracked_and_untracked [("A", initExecState)] "A" [] "k").2 initExecState
     (by decide)).2.1⟩

/-- C10: `interrupt_execution` tests the connection before consulting
the tracker: with no connection it returns the not-connected error for
every id (first conjunct), and a no-pending (UnknownExecution) outcome
is observable only while connected (second conjunct). -/
theorem interrupt_checks_connection_first (pend : PendMap) (id : String) (hdr : Bytes)
    (key : String) :
    interrupt_execution false pend id hdr key = (InterruptResult.notConnected, pend, [])
    ∧ (∀ conn : Bool, (interrupt_execution conn pend id hdr key).1 =
        InterruptResult.noPending id → conn = true) := by
  constructor
  · simp [interrupt_execution]
  · intro conn h
    cases conn
    · exfalso
      rw [show interrupt_execution false pend id hdr key =
          (InterruptResult.notConnected, pend, []) from by simp [interrupt_execution]] at h
      exact InterruptResult.noConfusion h
    · rfl

/-- Witness for C10: a concretely untracked id with a live connection is
reported as no-pending, and the theorem then certifies the connection. -/
theorem interrupt_checks_connection_first_witness :
    (interrupt_execution true ([] : PendMap) "B" [] "k").1 = InterruptResult.noPending "B"
    ∧ true = true :=
  ⟨by decide,
   (interrupt_checks_connection_first ([] : PendMap) "B" [] "k").2 true (by decide)⟩

/-- C1 counterexample: on a concrete connect attempt in which the iopub
channel fails to connect, the call does return an error identifying the
failing channel and its address — but the shell channel opened earlier in
the same attempt is NOT closed before returning (and the iopub socket
object itself stays open too), and the loaded descriptor stays stored,
so the session is left half-open, contradicting the claim. -/
theorem connect_bind_cleanup_claim_cex :
    (connect_to_kernel true "/tmp/kernel.json" descFull none (some "Connection refused")
      none freshConn).1 =
        ConnectResult.iopubBindFail "tcp://127.0.0.1:5556" "Connection refused"
    ∧ (connect_to_kernel true "/tmp/kernel.json" descFull none (some "Connection refused")
        none freshConn).2.shellOpen = true
    ∧ (connect_to_kernel true "/tmp/kernel.json" descFull none (some "Connection refused")
        none freshConn).2.iopubOpen = true
    ∧ (connect_to_kernel true "/tmp/kernel.json" descFull none (some "Connection refused")
        none freshConn).2.kernelConn = some descFull := by
  decide

/-- C1 (amended): when connecting one of the three channels fails,
`connect_to_kernel` returns a `ChannelBindError`-style outcome
identifying the failing channel and its address; however the channels
already opened during that attempt remain open (only the channels of the
previous session were closed), and the descriptor remains stored — the
resulting state is written out exactly for each failing channel. -/
theorem connect_bind_error_behavior (path : String) (desc : Desc) (st : ConnState)
    (e : String) (o1 o2 : Option String) (hv : missingOf desc = []) :
    connect_to_kernel true path desc (some e) o1 o2 st =
      (ConnectResult.shellBindFail
        ("tcp://" ++ descGet desc "ip" ++ ":" ++ descGet desc "shell_port") e,
       ⟨some desc, true, false, false, true⟩)
    ∧ connect_to_kernel true path desc none (some e) o2 st =
      (ConnectResult.iopubBindFail
        ("tcp://" ++ descGet desc "ip" ++ ":" ++ descGet desc "iopub_port") e,
       ⟨some desc, true, true, false, true⟩)
    ∧ connect_to_kernel true path desc none none (some e) st =
      (ConnectResult.controlBindFail
        ("tcp://" ++ descGet desc "ip" ++ ":" ++ descGet desc "control_port") e,
       ⟨some desc, true, true, true, true⟩) := by
  refine ⟨?_, ?_, ?_⟩ <;> simp [connect_to_kernel, hv]

/-- Witness for C1 (amended) at a concrete descriptor. -/
theorem connect_bind_error_behavior_witness :
    missingOf descFull = []
    ∧ connect_to_kernel true "/f" descFull none (some "boom") none freshConn =
      (ConnectResult.iopubBindFail
        ("tcp://" ++ descGet descFull "ip" ++ ":" ++ descGet descFull "iopub_port") "boom",
       ⟨some descFull, true, true, false, true⟩) :=
  ⟨by decide,
   (connect_bind_error_behavior "/f" descFull freshConn "boom" none none (by decide)).2.1⟩

/-- C2 counterexample: connecting with a concrete descriptor missing only
`key` does fail listing exactly `['key']` and opens no channel — but the
stored connection state does not remain absent: it is overwritten with
the partial descriptor before validation, so a subsequent
`kernel_status` call reports connected, contradicting the claim. -/
theorem connect_missing_key_claim_cex :
    (connect_to_kernel true "/tmp/kernel.json" descNoKey none none none freshConn).1 =
      ConnectResult.missingFields ["key"]
    ∧ renderConnectResult
        (connect_to_kernel true "/tmp/kernel.json" descNoKey none none none freshConn).1 =
      "❌ Connection file missing required fields: ['key']"
    ∧ (connect_to_kernel true "/tmp/kernel.json" descNoKey none none none
        freshConn).2.kernelConn = some descNoKey
    ∧ kernel_status
        (connect_to_kernel true "/tmp/kernel.json" descNoKey none none none
          freshConn).2.kernelConn =
      some "✅ Connected to kernel at 127.0.0.1:5555" := by
  decide

/-- C2 (amended): a descriptor missing required fields makes
`connect_to_kernel` fail with an error listing exactly the missing
fields, and no channels are opened or closed (the socket flags are
unchanged); however the stored connection state is overwritten with the
partial descriptor before validation rather than remaining absent, so a
subsequent `kernel_status` reports connected whenever the partial
descriptor still carries `ip` and `shell_port`. -/
theorem connect_missing_fields_behavior (path : String) (desc : Desc) (st : ConnState)
    (o1 o2 o3 : Option String) (hm : missingOf desc ≠ []) :
    connect_to_kernel true path desc o1 o2 o3 st =
      (ConnectResult.missingFields (missingOf desc), { st with kernelConn := some desc })
    ∧ ({ st with kernelConn := some desc }).shellOpen = st.shellOpen
    ∧ ({ st with kernelConn := some desc }).iopubOpen = st.iopubOpen
    ∧ ({ st with kernelConn := some desc }).controlOpen = st.controlOpen
    ∧ (∀ ip sp, lookupKey "ip" desc = some ip → lookupKey "shell_port" desc = some sp →
        kernel_status (some desc) =
          some ("✅ Connected to kernel at " ++ ip ++ ":" ++ sp)) := by
  refine ⟨?_, rfl, rfl, rfl, ?_⟩
  · simp [connect_to_kernel, hm]
  · intro ip sp hip hsp
    have hne : desc ≠ [] := by
      intro h
      rw [h] at hip
      simp [lookupKey] at hip
    simp [kernel_status, hne, hip, hsp]

/-- Witness for C2 (amended) at the concrete key-less descriptor. -/
theorem connect_missing_fields_behavior_witness :
    missingOf descNoKey ≠ []
    ∧ connect_to_kernel true "/f" descNoKey none none none freshConn =
      (ConnectResult.missingFields (missingOf descNoKey),
       { freshConn with kernelConn := some descNoKey }) :=
  ⟨by decide,
   (connect_missing_fields_behavior "/f" descNoKey freshConn none none none (by decide)).1⟩

end IPythonMcp
